import Mathlib

/-!
Verification of the Duron job-queue engine (geut/duron).

This file gives a shallow embedding, in Lean 4, of the parts of the Duron
source that the verified claims are about:

* the Postgres store operations of
  `src/packages/duron/src/adapters/postgres/pglite.ts`
  (`PostgresBaseAdapter._fetch`, `._retryJob`, `._recoverJobs`,
  `._deleteJob`, `._deleteJobs`, `._cancelJob`, `._delayJobStep`):
  the database is modelled as a `List Job` (respectively step rows as
  `JobStepRow`), SQL `now()` as an explicit `now : Nat` argument, and each
  SQL statement as a pure function from the old state to the new state plus
  its returned rows;
* the retry machinery of `src/packages/duron/src/utils/p-retry.ts` together
  with the step dispatch of `StepManager.#executeStep` (step-manager source):
  modelled as a terminating loop over an oracle of attempt outcomes;
* the error classification of `src/packages/duron/src/errors.ts`
  (`isNonRetriableError`, `isCancelError`, the `cause` chains);
* `ActionJob.execute` (action-job source) and `Client.cancelJob`
  (client source).

Timestamps are naturals (milliseconds); the SQL comparison
`expires_at > now()` becomes `now < t`.  Job ids are naturals.  Opaque JSON
values (inputs, outputs) are strings.  All definitions are executable so
that each claim can be evaluated on concrete states.
-/

namespace Duron

/-- Job status enumeration, `JOB_STATUS_*` of `constants.ts`. -/
inductive JobStatus where
  | created
  | active
  | completed
  | failed
  | cancelled
deriving DecidableEq, Repr

/-- One row of the `jobs` relation (schema of
`adapters/postgres/schema.default.ts`; the runtime `client_id` field is the
`owner_id` column). -/
structure Job where
  id : Nat
  actionName : String
  groupKey : String
  status : JobStatus
  checksum : String
  input : String
  output : Option String
  error : Option String
  timeoutMs : Nat
  expiresAt : Option Nat
  startedAt : Option Nat
  finishedAt : Option Nat
  clientId : Option String
  concurrencyLimit : Nat
  createdAt : Nat
deriving DecidableEq, Repr

/-- SQL predicate `(j.expires_at IS NULL OR j.expires_at > now())`. -/
def notExpiredB (now : Nat) (j : Job) : Bool :=
  match j.expiresAt with
  | none => true
  | some t => now < t

/-- Whether a job belongs to the `(actionName, groupKey)` pair. -/
def inPairB (a g : String) (j : Job) : Bool :=
  j.actionName == a && j.groupKey == g

/-- Terminal job statuses (`completed`, `cancelled`, `failed`). -/
def terminalB (j : Job) : Bool :=
  j.status == .completed || j.status == .cancelled || j.status == .failed

/-- SQL ordering key `(created_at, id)`: `a` sorts no later than `b`. -/
def keyLe (a b : Job) : Bool :=
  a.createdAt < b.createdAt || (a.createdAt == b.createdAt && a.id ≤ b.id)

/-- Insertion into a list sorted by `keyLe`. -/
def insertByKey (x : Job) : List Job → List Job
  | [] => [x]
  | y :: ys => if keyLe x y then x :: y :: ys else y :: insertByKey x ys

/-- Insertion sort by `(created_at ASC, id ASC)`, the `ORDER BY` used by
`_fetch`. -/
def sortByKey : List Job → List Job
  | [] => []
  | x :: xs => insertByKey x (sortByKey xs)

theorem mem_insertByKey {x y : Job} {l : List Job} :
    y ∈ insertByKey x l ↔ y = x ∨ y ∈ l := by
  induction l with
  | nil => simp [insertByKey]
  | cons z zs ih =>
      by_cases h : keyLe x z
      · simp [insertByKey, h]
      · simp [insertByKey, h, ih]
        tauto

theorem mem_sortByKey {y : Job} {l : List Job} :
    y ∈ sortByKey l ↔ y ∈ l := by
  induction l with
  | nil => simp [sortByKey]
  | cons z zs ih => simp [sortByKey, mem_insertByKey, ih]

theorem length_insertByKey (x : Job) (l : List Job) :
    (insertByKey x l).length = l.length + 1 := by
  induction l with
  | nil => rfl
  | cons z zs ih =>
      by_cases h : keyLe x z
      · simp [insertByKey, h]
      · simp [insertByKey, h, ih]

theorem length_sortByKey (l : List Job) :
    (sortByKey l).length = l.length := by
  induction l with
  | nil => rfl
  | cons z zs ih => simp [sortByKey, length_insertByKey, ih]

/-- `DISTINCT ON (group_key, action_name) ... ORDER BY created_at DESC, id
DESC` restricted to one pair: the job of the pair, among the non-expired
rows, with the largest `(created_at, id)` key (CTE `group_concurrency` of
`_fetch`; the same subquery picks the `concurrency_limit` in `_retryJob`). -/
def latestJob (now : Nat) (a g : String) : List Job → Option Job
  | [] => none
  | j :: rest =>
      let r := latestJob now a g rest
      if inPairB a g j && notExpiredB now j then
        match r with
        | none => some j
        | some k => if keyLe k j then some j else some k
      else r

/-- The effective concurrency limit of a pair: the `concurrency_limit` of
the most recently created non-expired job in it. -/
def groupLimit (db : List Job) (now : Nat) (a g : String) : Option Nat :=
  (latestJob now a g db).map Job.concurrencyLimit

/-- `COUNT(*) FILTER (WHERE j.status = 'active')` over the non-expired rows
of the pair (CTE `eligible_groups` of `_fetch`). -/
def activeCountNE (db : List Job) (now : Nat) (a g : String) : Nat :=
  db.countP fun j => inPairB a g j && (j.status == .active) && notExpiredB now j

/-- `COUNT(*)` of `active` rows of a pair with no expiry filter (CTE
`verify_concurrency` of `_fetch`). -/
def currentActiveAll (db : List Job) (a g : String) : Nat :=
  db.countP fun j => inPairB a g j && (j.status == .active)

/-- CTE `eligible_groups`: the pair has a defined limit and its non-expired
active count is below it. -/
def eligibleB (db : List Job) (now : Nat) (a g : String) : Bool :=
  match groupLimit db now a g with
  | some l => activeCountNE db now a g < l
  | none => false

/-- CTE `candidate_jobs`: `created` rows of eligible pairs (row locks are
not modelled; the fetch is a single sequential transaction here). -/
def candidateB (db : List Job) (now : Nat) (j : Job) : Bool :=
  (j.status == .created) && eligibleB db now j.actionName j.groupKey

/-- The headroom `eg.concurrency_limit - eg.active_count` of a pair. -/
def pairHeadroom (db : List Job) (now : Nat) (a g : String) : Nat :=
  match groupLimit db now a g with
  | some l => l - activeCountNE db now a g
  | none => 0

/-- CTE `ranked_jobs` joined back with `eligible_groups`: the candidates of
one pair ordered by `(created_at, id)` and cut to ranks
`<= concurrency_limit - active_count`. -/
def selectedInPair (db : List Job) (now : Nat) (a g : String) : List Job :=
  (sortByKey (db.filter fun j => inPairB a g j && candidateB db now j)).take
    (pairHeadroom db now a g)

/-- Whether a row survives its pair's rank cut. -/
def selectedB (db : List Job) (now : Nat) (j : Job) : Bool :=
  (selectedInPair db now j.actionName j.groupKey).any fun k => k.id == j.id

/-- CTE `next_job`: the per-pair selections, ordered globally by
`(created_at, id)` and capped to `batch`. -/
def nextJobs (db : List Job) (now : Nat) (batch : Nat) : List Job :=
  (sortByKey (db.filter (selectedB db now))).take batch

/-- CTE `verify_concurrency` plus the final `WHERE` of the `UPDATE`: the
re-verification `vc.current_active < vc.concurrency_limit`, with
`current_active` counting every `active` row of the pair. -/
def verifyB (db : List Job) (now : Nat) (j : Job) : Bool :=
  match groupLimit db now j.actionName j.groupKey with
  | some l => currentActiveAll db j.actionName j.groupKey < l
  | none => false

/-- A row is written by the `UPDATE` of `_fetch` iff it is in `next_job`
(matched by id) and passes the re-verification. -/
def admittedB (db : List Job) (now : Nat) (batch : Nat) (j : Job) : Bool :=
  ((nextJobs db now batch).any fun k => k.id == j.id) && verifyB db now j

/-- The `SET` clause of the `UPDATE` of `_fetch`. -/
def admitJob (now : Nat) (clientId : String) (j : Job) : Job :=
  { j with
    status := .active
    startedAt := some now
    expiresAt := some (now + j.timeoutMs)
    clientId := some clientId }

/-- `PostgresBaseAdapter._fetch`: the database state after the fetch
transaction. -/
def fetchDb (db : List Job) (now : Nat) (batch : Nat) (clientId : String) :
    List Job :=
  db.map fun j => if admittedB db now batch j then admitJob now clientId j else j

/-- `PostgresBaseAdapter._fetch`: the rows returned by the `RETURNING`
clause (the claimed jobs, in their updated form). -/
def fetchReturned (db : List Job) (now : Nat) (batch : Nat) (clientId : String) :
    List Job :=
  (db.filter (admittedB db now batch)).map (admitJob now clientId)

/-! ### Structural lemmas about the fetch embedding -/

theorem job_id_inj {db : List Job} (hids : (db.map Job.id).Nodup)
    {x y : Job} (hx : x ∈ db) (hy : y ∈ db) (h : x.id = y.id) : x = y :=
  List.inj_on_of_nodup_map hids hx hy h

theorem selectedInPair_subset {db : List Job} {now : Nat} {a g : String} :
    selectedInPair db now a g ⊆
      db.filter fun j => inPairB a g j && candidateB db now j := by
  intro x hx
  exact mem_sortByKey.1 (List.take_subset _ _ hx)

theorem of_selectedB {db : List Job} {now : Nat} {j : Job}
    (hids : (db.map Job.id).Nodup) (hj : j ∈ db)
    (h : selectedB db now j = true) :
    candidateB db now j = true ∧
      j ∈ selectedInPair db now j.actionName j.groupKey := by
  rw [selectedB, List.any_eq_true] at h
  obtain ⟨k, hk, hkid⟩ := h
  have hk' := selectedInPair_subset hk
  rw [List.mem_filter] at hk'
  have hkj : k = j := job_id_inj hids hk'.1 hj (by simpa using hkid)
  subst hkj
  have h2 := hk'.2
  rw [Bool.and_eq_true] at h2
  exact ⟨h2.2, hk⟩

theorem of_admittedB {db : List Job} {now batch : Nat} {j : Job}
    (hids : (db.map Job.id).Nodup) (hj : j ∈ db)
    (h : admittedB db now batch j = true) :
    candidateB db now j = true ∧
      j ∈ selectedInPair db now j.actionName j.groupKey ∧
      verifyB db now j = true := by
  rw [admittedB, Bool.and_eq_true, List.any_eq_true] at h
  obtain ⟨⟨k, hk, hkid⟩, hver⟩ := h
  have hk' : k ∈ db.filter (selectedB db now) :=
    mem_sortByKey.1 (List.take_subset _ _ hk)
  rw [List.mem_filter] at hk'
  have hkj : k = j := job_id_inj hids hk'.1 hj (by simpa using hkid)
  subst hkj
  obtain ⟨hc, hs⟩ := of_selectedB hids hj hk'.2
  exact ⟨hc, hs, hver⟩

theorem status_of_admittedB {db : List Job} {now batch : Nat} {j : Job}
    (hids : (db.map Job.id).Nodup) (hj : j ∈ db)
    (h : admittedB db now batch j = true) : j.status = .created := by
  have hc := (of_admittedB hids hj h).1
  rw [candidateB, Bool.and_eq_true, beq_iff_eq] at hc
  exact hc.1

/-- Counting the post-fetch unexpired active jobs of a pair: the update
turns each admitted row (a `created` row) into an unexpired active row and
leaves every other row untouched. -/
theorem countP_fetch (db : List Job) (now batch : Nat) (cid a g : String)
    (hids : (db.map Job.id).Nodup) :
    ∀ l : List Job, (∀ j ∈ l, j ∈ db ∧ 0 < j.timeoutMs) →
      ((l.map fun j =>
          if admittedB db now batch j then admitJob now cid j else j).countP
        fun j => inPairB a g j && (j.status == .active) && notExpiredB now j)
      = (l.countP fun j =>
          inPairB a g j && (j.status == .active) && notExpiredB now j)
        + l.countP fun j => admittedB db now batch j && inPairB a g j := by
  intro l hl
  induction l with
  | nil => simp
  | cons j rest ih =>
      have hj := hl j (List.mem_cons_self _ _)
      have hrest : ∀ x ∈ rest, x ∈ db ∧ 0 < x.timeoutMs := fun x hx =>
        hl x (List.mem_cons_of_mem _ hx)
      by_cases hadm : admittedB db now batch j = true
      · have hst : j.status = .created := status_of_admittedB hids hj.1 hadm
        simp only [List.map_cons, List.countP_cons, hadm, if_pos]
        rw [ih hrest]
        have h1 : (inPairB a g (admitJob now cid j) &&
            ((admitJob now cid j).status == JobStatus.active) &&
            notExpiredB now (admitJob now cid j)) = inPairB a g j := by
          simp [admitJob, inPairB, notExpiredB, hj.2]
        have h2 : (inPairB a g j && (j.status == JobStatus.active) &&
            notExpiredB now j) = false := by
          simp [hst]
        rw [h1, h2]
        cases hpg : inPairB a g j
        · simp
        · simp
          omega
      · have hadm' : admittedB db now batch j = false := by
          simpa using hadm
        simp only [List.map_cons, List.countP_cons, hadm', if_neg, Bool.false_eq_true,
          not_false_iff]
        rw [ih hrest]
        simp
        omega

/-- Per pair, the rows the fetch admits are a subset of the pair's rank
selection, so their number is bounded by the pair's headroom. -/
theorem admitted_count_le_headroom (db : List Job) (now batch : Nat)
    (a g : String) (hids : (db.map Job.id).Nodup) :
    (db.countP fun j => admittedB db now batch j && inPairB a g j) ≤
      pairHeadroom db now a g := by
  have hsub : (db.filter fun j => admittedB db now batch j && inPairB a g j) ⊆
      selectedInPair db now a g := by
    intro x hx
    rw [List.mem_filter, Bool.and_eq_true] at hx
    obtain ⟨hxdb, hadm, hpair⟩ := hx
    obtain ⟨_, hsel, _⟩ := of_admittedB hids hxdb hadm
    rw [inPairB, Bool.and_eq_true, beq_iff_eq, beq_iff_eq] at hpair
    rwa [hpair.1, hpair.2] at hsel
  have hnd : (db.filter fun j => admittedB db now batch j && inPairB a g j).Nodup :=
    (List.Nodup.of_map _ hids).filter _
  have hlen := (hnd.subperm hsub).length_le
  calc (db.countP fun j => admittedB db now batch j && inPairB a g j)
      = (db.filter fun j => admittedB db now batch j && inPairB a g j).length :=
        List.countP_eq_length_filter _ _
    _ ≤ (selectedInPair db now a g).length := hlen
    _ ≤ pairHeadroom db now a g := by
        rw [selectedInPair, List.length_take]
        exact min_le_left _ _

/-! ### Concrete states used by counterexamples and witnesses -/

/-- An `active` job of pair `("a", "g")` whose lease has expired
(`expiresAt = 5`). -/
def cxJob1 : Job :=
  { id := 1, actionName := "a", groupKey := "g", status := .active
    checksum := "c", input := "i", output := none, error := none
    timeoutMs := 5, expiresAt := some 5, startedAt := some 0
    finishedAt := none, clientId := some "w", concurrencyLimit := 2
    createdAt := 0 }

/-- A `created` job of the same pair with `concurrencyLimit = 2`. -/
def cxJob2 : Job :=
  { cxJob1 with
    id := 2
    status := .created
    expiresAt := none
    startedAt := none
    clientId := none
    createdAt := 1 }

/-- A second `created` job of the same pair. -/
def cxJob3 : Job :=
  { cxJob2 with
    id := 3
    createdAt := 2 }

/-- State with one expired active job and two created jobs, all in pair
`("a", "g")` with effective limit 2. -/
def cxDb : List Job := [cxJob1, cxJob2, cxJob3]

/-- C1, counterexample to the claim as stated: at time 10 the pair
`("a", "g")` of `cxDb` has effective limit `L = 2` (the limit of the most
recently created non-expired job), yet after a fetch three of its jobs are
`active`.  The expired active job `cxJob1` is invisible to the headroom
computation (CTE `eligible_groups` filters expired rows) while it still
counts as `active`, so the fetch admits both created jobs and the pair ends
with 3 active jobs, exceeding `L = 2`. -/
theorem duron_C1_counterexample :
    groupLimit (fetchDb cxDb 10 10 "me") 10 "a" "g" = some 2 ∧
      currentActiveAll (fetchDb cxDb 10 10 "me") "a" "g" = 3 := by
  constructor
  · decide
  · decide

/-- C1, amended: counting only unexpired rows, a fetch never lifts a pair
above its effective limit `L` (the `concurrencyLimit` of the most recently
created non-expired job of the pair): a pair whose unexpired active count
was at most `L` before the fetch stays at most `L` after it, in general the
post-fetch count is bounded by `max` of the pre-fetch count and `L`, and
every admitted job was re-verified against the pair limit (its pair's total
active count was strictly below `L`) before the write. -/
theorem duron_C1_fetch_group_admission (db : List Job) (now batch : Nat)
    (cid a g : String) (L : Nat)
    (hids : (db.map Job.id).Nodup)
    (htm : ∀ j ∈ db, 0 < j.timeoutMs)
    (hL : groupLimit db now a g = some L) :
    (activeCountNE db now a g ≤ L →
      activeCountNE (fetchDb db now batch cid) now a g ≤ L)
    ∧ activeCountNE (fetchDb db now batch cid) now a g ≤
        max (activeCountNE db now a g) L
    ∧ ∀ j ∈ db, admittedB db now batch j = true →
        ∃ l, groupLimit db now j.actionName j.groupKey = some l ∧
          currentActiveAll db j.actionName j.groupKey < l := by
  have hdecomp :=
    countP_fetch db now batch cid a g hids db (fun j hj => ⟨hj, htm j hj⟩)
  have hbound := admitted_count_le_headroom db now batch a g hids
  have hpost : activeCountNE (fetchDb db now batch cid) now a g
      = activeCountNE db now a g +
        db.countP fun j => admittedB db now batch j && inPairB a g j := hdecomp
  have hhr : pairHeadroom db now a g = L - activeCountNE db now a g := by
    rw [pairHeadroom, hL]
  rw [hhr] at hbound
  refine ⟨fun hpre => ?_, ?_, ?_⟩
  · omega
  · rcases Nat.le_total (activeCountNE db now a g) L with h | h
    · rw [Nat.max_eq_right h]
      omega
    · rw [Nat.max_eq_left h]
      omega
  · intro j hj hadm
    have hv := (of_admittedB hids hj hadm).2.2
    simp only [verifyB] at hv
    rcases hgl : groupLimit db now j.actionName j.groupKey with _ | l
    · rw [hgl] at hv
      simp at hv
    · rw [hgl] at hv
      simp only [decide_eq_true_eq] at hv
      exact ⟨l, rfl, hv⟩

/-- C1, witness: the amended theorem applied to the concrete state
`[cxJob2]` (one created job, pair limit 2) at time 10. -/
theorem duron_C1_fetch_group_admission_witness :
    (([cxJob2].map Job.id).Nodup ∧ (∀ j ∈ [cxJob2], 0 < j.timeoutMs) ∧
      groupLimit [cxJob2] 10 "a" "g" = some 2) ∧
    ((activeCountNE [cxJob2] 10 "a" "g" ≤ 2 →
      activeCountNE (fetchDb [cxJob2] 10 1 "me") 10 "a" "g" ≤ 2)
    ∧ activeCountNE (fetchDb [cxJob2] 10 1 "me") 10 "a" "g" ≤
        max (activeCountNE [cxJob2] 10 "a" "g") 2
    ∧ ∀ j ∈ [cxJob2], admittedB [cxJob2] 10 1 j = true →
        ∃ l, groupLimit [cxJob2] 10 j.actionName j.groupKey = some l ∧
          currentActiveAll [cxJob2] j.actionName j.groupKey < l) :=
  ⟨⟨by decide, by decide, by decide⟩,
    duron_C1_fetch_group_admission [cxJob2] 10 1 "me" "a" "g" 2
      (by decide) (by decide) (by decide)⟩

/-! ### `_retryJob` -/

/-- The join condition of CTE `existing_retry`: same
`(action_name, group_key, checksum, input)` tuple. -/
def sameTupleB (j ls : Job) : Bool :=
  j.actionName == ls.actionName && j.groupKey == ls.groupKey &&
    j.checksum == ls.checksum && j.input == ls.input

/-- CTE `existing_retry` of `_retryJob`: some strictly newer job of the
same tuple is still `created` or `active`. -/
def existingRetryB (db : List Job) (ls : Job) : Bool :=
  db.any fun j =>
    sameTupleB j ls && decide (ls.createdAt < j.createdAt) &&
      (j.status == .created || j.status == .active)

/-- The `COALESCE` of CTE `inserted_retry`: `concurrency_limit` of the most
recently created non-expired job of the source's pair, else the source's
own. -/
def retryConcurrency (db : List Job) (now : Nat) (ls : Job) : Nat :=
  match latestJob now ls.actionName ls.groupKey db with
  | some k => k.concurrencyLimit
  | none => ls.concurrencyLimit

/-- The row inserted by CTE `inserted_retry` (`created_at` takes the column
default `now()`, `id` is the generated key). -/
def retryInsertedJob (db : List Job) (now newId : Nat) (ls : Job) : Job :=
  { id := newId, actionName := ls.actionName, groupKey := ls.groupKey
    status := .created, checksum := ls.checksum, input := ls.input
    output := none, error := none, timeoutMs := ls.timeoutMs
    expiresAt := none, startedAt := none, finishedAt := none
    clientId := none, concurrencyLimit := retryConcurrency db now ls
    createdAt := now }

/-- `PostgresBaseAdapter._retryJob`: lock the source row if terminal, bail
out if a newer non-terminal job of the same tuple exists, otherwise insert
the copy.  Returns the new id (or `none`) and the new state. -/
def retryJob (db : List Job) (now newId jobId : Nat) : Option Nat × List Job :=
  match db.find? (fun j => j.id == jobId && terminalB j) with
  | none => (none, db)
  | some ls =>
      if existingRetryB db ls then (none, db)
      else (some newId, db ++ [retryInsertedJob db now newId ls])

/-- Number of non-terminal jobs of the source's tuple other than the source
itself. -/
def nonTerminalSiblings (db : List Job) (ls : Job) : Nat :=
  db.countP fun j => sameTupleB j ls && !(j.id == ls.id) && !(terminalB j)

/-- Number of non-terminal jobs of the source's tuple created strictly
after the source. -/
def newerNonTerminalSiblings (db : List Job) (ls : Job) : Nat :=
  db.countP fun j =>
    sameTupleB j ls && decide (ls.createdAt < j.createdAt) && !(terminalB j)

theorem nonTerminal_eq (j : Job) :
    (!(terminalB j)) = (j.status == .created || j.status == .active) := by
  cases h : j.status <;> simp [terminalB, h]

/-- A non-terminal job of the same tuple created before its terminal
sibling (enqueued twice, the newer one completed). -/
def cxRetrySib : Job :=
  { cxJob2 with
    id := 1
    createdAt := 0 }

/-- A terminal (completed) source job. -/
def cxRetrySrc : Job :=
  { cxJob2 with
    id := 2
    status := .completed
    finishedAt := some 3
    createdAt := 1 }

/-- State for the retry counterexample: an old still-`created` job and a
newer `completed` job of the same tuple. -/
def cxRetryDb : List Job := [cxRetrySib, cxRetrySrc]

/-- C3, counterexample to the claim as stated: the source `cxRetrySrc` is
terminal and `retryJob` does return a new job id (the guard only looks for
siblings created strictly *after* the source, so the older `created`
sibling does not block the insert), yet afterwards two non-terminal jobs of
the tuple exist, contradicting "at most one non-terminal sibling for that
tuple exists at a time". -/
theorem duron_C3_counterexample :
    terminalB cxRetrySrc = true ∧
      (retryJob cxRetryDb 5 3 2).fst = some 3 ∧
      nonTerminalSiblings (retryJob cxRetryDb 5 3 2).snd cxRetrySrc = 2 := by
  refine ⟨by decide, by decide, by decide⟩

/-- C3, amended: `retryJob` returns a new id exactly when the source is
terminal and no *newer* non-terminal job of the same
`(actionName, groupKey, checksum, input)` tuple exists; it then appends one
`created` job copying `actionName`, `groupKey`, `checksum`, `input` and
`timeoutMs`, with `concurrencyLimit` taken from the most recently created
non-expired job of the pair (else the source's); otherwise it returns
`none` and leaves the state unchanged.  Consequently a terminal source job
has at most one non-terminal sibling *created after it* at a time. -/
theorem duron_C3_retryJob (db : List Job) (now newId jobId : Nat) :
    (db.find? (fun j => j.id == jobId && terminalB j) = none →
      retryJob db now newId jobId = (none, db))
    ∧ (∀ ls, db.find? (fun j => j.id == jobId && terminalB j) = some ls →
        existingRetryB db ls = true →
        retryJob db now newId jobId = (none, db))
    ∧ (∀ ls, db.find? (fun j => j.id == jobId && terminalB j) = some ls →
        existingRetryB db ls = false →
        ∃ nj, retryJob db now newId jobId = (some newId, db ++ [nj]) ∧
          nj.actionName = ls.actionName ∧ nj.groupKey = ls.groupKey ∧
          nj.checksum = ls.checksum ∧ nj.input = ls.input ∧
          nj.timeoutMs = ls.timeoutMs ∧ nj.status = .created ∧
          nj.concurrencyLimit =
            (groupLimit db now ls.actionName ls.groupKey).getD
              ls.concurrencyLimit)
    ∧ (∀ ls, db.find? (fun j => j.id == jobId && terminalB j) = some ls →
        ls.createdAt < now →
        newerNonTerminalSiblings db ls ≤ 1 →
        newerNonTerminalSiblings (retryJob db now newId jobId).snd ls ≤ 1) := by
  refine ⟨?_, ?_, ?_, ?_⟩
  · intro h
    rw [retryJob, h]
  · intro ls hfind hex
    rw [retryJob, hfind]
    simp only [hex, if_pos]
  · intro ls hfind hex
    refine ⟨retryInsertedJob db now newId ls, ?_, rfl, rfl, rfl, rfl, rfl, rfl, ?_⟩
    · rw [retryJob, hfind]
      simp [hex]
    · show retryConcurrency db now ls = _
      cases h : latestJob now ls.actionName ls.groupKey db <;>
        simp [retryConcurrency, groupLimit, h]
  · intro ls hfind hnow hpre
    rw [retryJob, hfind]
    by_cases hex : existingRetryB db ls = true
    · simpa [hex] using hpre
    · have hex' : existingRetryB db ls = false := by simpa using hex
      simp only [hex', Bool.false_eq_true, if_neg, not_false_iff]
      simp only [existingRetryB] at hex'
      have hq := List.any_eq_false.mp hex'

      have h0 : (db.countP fun j =>
          sameTupleB j ls && decide (ls.createdAt < j.createdAt) &&
            !(terminalB j)) = 0 := by
        rw [List.countP_eq_zero]
        intro j hj
        rw [nonTerminal_eq]
        exact hq j hj
      rw [newerNonTerminalSiblings, List.countP_append, h0]
      have h1 : (sameTupleB (retryInsertedJob db now newId ls) ls &&
          decide (ls.createdAt < (retryInsertedJob db now newId ls).createdAt) &&
          !(terminalB (retryInsertedJob db now newId ls))) = true := by
        simp [sameTupleB, retryInsertedJob, terminalB, hnow]
      simp [h1]
/-- C3, witness: the amended theorem applied at the concrete state
`[cxRetrySrc]` (one terminal source, no siblings): the retry inserts a copy
and the newer-sibling bound holds. -/
theorem duron_C3_retryJob_witness :
    ([cxRetrySrc].find? (fun j => j.id == 2 && terminalB j) = some cxRetrySrc ∧
      existingRetryB [cxRetrySrc] cxRetrySrc = false ∧
      cxRetrySrc.createdAt < 5 ∧
      newerNonTerminalSiblings [cxRetrySrc] cxRetrySrc ≤ 1) ∧
    (∃ nj, retryJob [cxRetrySrc] 5 3 2 = (some 3, [cxRetrySrc] ++ [nj]) ∧
      nj.actionName = cxRetrySrc.actionName ∧ nj.groupKey = cxRetrySrc.groupKey ∧
      nj.checksum = cxRetrySrc.checksum ∧ nj.input = cxRetrySrc.input ∧
      nj.timeoutMs = cxRetrySrc.timeoutMs ∧ nj.status = .created ∧
      nj.concurrencyLimit =
        (groupLimit [cxRetrySrc] 5 cxRetrySrc.actionName
          cxRetrySrc.groupKey).getD cxRetrySrc.concurrencyLimit) ∧
    newerNonTerminalSiblings (retryJob [cxRetrySrc] 5 3 2).snd cxRetrySrc ≤ 1 :=
  ⟨⟨by decide, by decide, by decide, by decide⟩,
    (duron_C3_retryJob [cxRetrySrc] 5 3 2).2.2.1 cxRetrySrc (by decide) (by decide),
    (duron_C3_retryJob [cxRetrySrc] 5 3 2).2.2.2 cxRetrySrc (by decide) (by decide)
      (by decide)⟩

/-! ### `_recoverJobs`

The ping/pong wait is asynchronous in the source; its outcome is the set of
client ids that answered within `processTimeout`, passed here as the
`pongResponders` oracle.  The `deleted_steps` CTE (step history of jobs
whose checksum is unknown to the caller) touches only the `job_steps`
relation and no claim refers to it, so it is not modelled. -/

/-- The `selectDistinct` of `_recoverJobs`: distinct `client_id`s on
`active` jobs other than the caller's (SQL `client_id <> caller` drops
`NULL`s). -/
def foreignActiveClientIds (db : List Job) (callerId : String) : List String :=
  (((db.filter fun j => j.status == .active).filterMap Job.clientId).filter
    fun c => c != callerId).dedup

/-- The `unresponsiveClientIds` list of `_recoverJobs`: the caller's own
id; foreign ids of active jobs are added only in `multiProcessMode`, and
only when they did not answer the ping. -/
def suspectIds (db : List Job) (callerId : String) (multiProcessMode : Bool)
    (pongResponders : List String) : List String :=
  if multiProcessMode then
    callerId :: (foreignActiveClientIds db callerId).filter
      fun c => !(pongResponders.contains c)
  else [callerId]

/-- Guard of CTEs `locked_jobs`/`updated_jobs`: `active` rows whose
`client_id` is in the suspect list. -/
def recoverTargetB (suspects : List String) (j : Job) : Bool :=
  j.status == .active &&
    (match j.clientId with
     | some c => suspects.contains c
     | none => false)

/-- The `SET` clause of CTE `updated_jobs`; `client_id` is not among the
assignments. -/
def recoverResetJob (j : Job) : Job :=
  { j with
    status := .created
    startedAt := none
    expiresAt := none
    finishedAt := none
    output := none
    error := none }

/-- `PostgresBaseAdapter._recoverJobs`: the jobs relation after the
recovery transaction. -/
def recoverJobsDb (db : List Job) (suspects : List String) : List Job :=
  db.map fun j => if recoverTargetB suspects j then recoverResetJob j else j

/-- `PostgresBaseAdapter._recoverJobs`: the returned count of reset rows. -/
def recoverJobsCount (db : List Job) (suspects : List String) : Nat :=
  db.countP (recoverTargetB suspects)

/-- An `active` job owned by the foreign client `"B"`. -/
def cxForeign : Job :=
  { cxJob1 with
    id := 7
    expiresAt := some 20
    clientId := some "B" }

/-- An `active` job owned by the caller `"A"`. -/
def cxOwn : Job :=
  { cxJob1 with
    id := 8
    expiresAt := some 20
    clientId := some "A" }

/-- C4, counterexample to the claim as stated: with `multiProcessMode`
false the suspect list is just the caller's id — the branch that gathers
foreign `clientId`s runs only when `multiProcessMode` is true — so the
foreign-owned active job survives recovery unchanged instead of being
reset to `created`. -/
theorem duron_C4_counterexample :
    suspectIds [cxForeign] "A" false [] = ["A"] ∧
      ("B" ∉ suspectIds [cxForeign] "A" false []) ∧
      recoverJobsDb [cxForeign] (suspectIds [cxForeign] "A" false [])
        = [cxForeign] ∧
      cxForeign.status = .active := by
  refine ⟨by decide, by decide, by decide, by decide⟩

/-- C4, amended: with `multiProcessMode` false the suspect set is exactly
the caller's own client id; recovery resets the caller's own active jobs
and leaves every foreign-owned (or unowned) active job untouched. -/
theorem duron_C4_recover_single_mode (db : List Job) (callerId : String)
    (pongs : List String) :
    suspectIds db callerId false pongs = [callerId]
    ∧ (∀ j ∈ db, j.clientId ≠ some callerId →
        recoverTargetB (suspectIds db callerId false pongs) j = false)
    ∧ (∀ j ∈ db, j.status = .active → j.clientId = some callerId →
        recoverTargetB (suspectIds db callerId false pongs) j = true)
    ∧ recoverJobsDb db (suspectIds db callerId false pongs)
        = db.map fun j =>
            if j.status == .active && (j.clientId == some callerId)
            then recoverResetJob j else j := by
  have htgt : ∀ j : Job, recoverTargetB [callerId] j
      = (j.status == .active && (j.clientId == some callerId)) := by
    intro j
    rw [recoverTargetB]
    cases hc : j.clientId with
    | none => simp
    | some c =>
        by_cases h : c = callerId
        · subst h
          simp [List.contains]
        · simp [List.contains, h, Ne.symm h]
  refine ⟨rfl, ?_, ?_, ?_⟩
  · intro j hj hne
    rw [suspectIds]
    simp only [if_neg (by simp : ¬(false = true))]
    rw [htgt]
    simp only [Bool.and_eq_false_iff]
    right
    simpa using hne
  · intro j hj hst hc
    rw [suspectIds]
    simp only [if_neg (by simp : ¬(false = true))]
    rw [htgt, hst, hc]
    simp
  · rw [suspectIds]
    simp only [if_neg (by simp : ¬(false = true))]
    rw [recoverJobsDb]
    apply List.map_congr_left
    intro j hj
    rw [htgt]

/-- C4, witness: the amended theorem applied to a state with one foreign
and one caller-owned active job. -/
theorem duron_C4_recover_single_mode_witness :
    (suspectIds [cxForeign, cxOwn] "A" false [] = ["A"]
    ∧ (∀ j ∈ [cxForeign, cxOwn], j.clientId ≠ some "A" →
        recoverTargetB (suspectIds [cxForeign, cxOwn] "A" false []) j = false)
    ∧ (∀ j ∈ [cxForeign, cxOwn], j.status = .active → j.clientId = some "A" →
        recoverTargetB (suspectIds [cxForeign, cxOwn] "A" false []) j = true)
    ∧ recoverJobsDb [cxForeign, cxOwn] (suspectIds [cxForeign, cxOwn] "A" false [])
        = [cxForeign, cxOwn].map fun j =>
            if j.status == .active && (j.clientId == some "A")
            then recoverResetJob j else j)
    ∧ cxForeign.clientId ≠ some "A" ∧ cxOwn.clientId = some "A" :=
  ⟨duron_C4_recover_single_mode [cxForeign, cxOwn] "A" [], by decide, by decide⟩

/-- C5, counterexample to the claim as stated: recovery resets the
caller-owned active job `cxOwn` to `created`, but the `UPDATE` never
assigns `client_id`, so the reset row still carries the previous owner's
id instead of `null`. -/
theorem duron_C5_counterexample :
    recoverJobsDb [cxOwn] (suspectIds [cxOwn] "A" false [])
      = [recoverResetJob cxOwn] ∧
    (recoverResetJob cxOwn).status = .created ∧
    (recoverResetJob cxOwn).clientId = some "A" := by
  refine ⟨by decide, by decide, by decide⟩

/-- C5, amended: every job that recovery resets afterwards has status
`created` with `startedAt`, `finishedAt`, `expiresAt`, `output` and
`error` all null, while `clientId` keeps its previous (non-null) value:
the previous owner's id is not cleared. -/
theorem duron_C5_recover_reset (db : List Job) (suspects : List String)
    (j : Job) (hj : j ∈ db) (ht : recoverTargetB suspects j = true) :
    ∃ j', j' ∈ recoverJobsDb db suspects ∧ j'.id = j.id ∧
      j'.status = .created ∧ j'.startedAt = none ∧ j'.finishedAt = none ∧
      j'.expiresAt = none ∧ j'.output = none ∧ j'.error = none ∧
      j'.clientId = j.clientId := by
  refine ⟨recoverResetJob j, ?_, rfl, rfl, rfl, rfl, rfl, rfl, rfl, rfl⟩
  rw [recoverJobsDb]
  exact List.mem_map.mpr ⟨j, hj, by rw [if_pos ht]⟩

/-- C5, witness: the amended theorem applied to the caller-owned active job
`cxOwn`; the reset row keeps `clientId = some "A"`. -/
theorem duron_C5_recover_reset_witness :
    (cxOwn ∈ [cxOwn] ∧ recoverTargetB ["A"] cxOwn = true) ∧
    (∃ j', j' ∈ recoverJobsDb [cxOwn] ["A"] ∧ j'.id = cxOwn.id ∧
      j'.status = .created ∧ j'.startedAt = none ∧ j'.finishedAt = none ∧
      j'.expiresAt = none ∧ j'.output = none ∧ j'.error = none ∧
      j'.clientId = cxOwn.clientId) :=
  ⟨⟨by decide, by decide⟩,
    duron_C5_recover_reset [cxOwn] ["A"] cxOwn (by decide) (by decide)⟩

/-! ### `_deleteJob`, `_deleteJobs` -/

/-- The `getJobs`/`deleteJobs` filters, modelled by their exact-match
members (`status`, `actionName`, `clientId`).  The fuzzy-search, date-range
and JSONB members of `_buildJobsWhereClause` contribute further conjuncts
of the same shape and are irrelevant to the claims; an absent member
contributes no condition. -/
structure JobFilters where
  status : Option (List JobStatus) := none
  actionName : Option (List String) := none
  clientId : Option (List String) := none
deriving DecidableEq, Repr

/-- `_buildJobsWhereClause`: the conjunction of the conditions derived from
the provided filters only — the builder never adds a `status <> 'active'`
condition. -/
def buildJobsWhereB (f : JobFilters) (j : Job) : Bool :=
  (match f.status with
   | some ss => ss.contains j.status
   | none => true) &&
  (match f.actionName with
   | some names => names.contains j.actionName
   | none => true) &&
  (match f.clientId with
   | some cs =>
      (match j.clientId with
       | some c => cs.contains c
       | none => false)
   | none => true)

/-- `PostgresBaseAdapter._deleteJobs`: delete every row matching the built
`WHERE` clause; the returned number is the count of deleted rows. -/
def deleteJobs (db : List Job) (f : JobFilters) : Nat × List Job :=
  ((db.filter (buildJobsWhereB f)).length,
    db.filter fun j => !(buildJobsWhereB f j))

/-- `PostgresBaseAdapter._deleteJob`: delete the row with the given id
unless it is `active` (the cascading step delete is not modelled); returns
whether a row was deleted. -/
def deleteJob (db : List Job) (jobId : Nat) : Bool × List Job :=
  (db.any fun j => j.id == jobId && !(j.status == .active),
    db.filter fun j => !(j.id == jobId && !(j.status == .active)))

/-- C6, the code bug evaluated at the failing input: `deleteJobs` with no
filters on a store holding one `active` job deletes that job and counts it
(`_buildJobsWhereClause` never excludes `active`, contradicting the doc
comments of `_deleteJobs`, `Adapter.deleteJobs` and `Client.deleteJobs`),
while the single-job `deleteJob` correctly refuses to delete it. -/
theorem duron_C6_deleteJobs_active :
    cxOwn.status = .active ∧
    deleteJobs [cxOwn] {} = (1, []) ∧
    deleteJob [cxOwn] cxOwn.id = (false, [cxOwn]) := by
  refine ⟨by decide, by decide, by decide⟩

/-! ### `Client.cancelJob` -/

/-- `PostgresBaseAdapter._cancelJob`: set `cancelled` and
`finished_at = now()` where the row is `active` or `created`; the boolean
tells whether a row was updated. -/
def cancelJobStore (db : List Job) (jobId : Nat) (now : Nat) :
    Bool × List Job :=
  (db.any fun j => j.id == jobId && (j.status == .active || j.status == .created),
    db.map fun j =>
      if j.id == jobId && (j.status == .active || j.status == .created)
      then { j with status := .cancelled, finishedAt := some now } else j)

/-- `Client.cancelJob`: each ActionManager is modelled by the set of job
ids it currently runs (`ActionManager.cancelJob` returns whether it holds
the job).  Only when no local manager holds the job is the store-level
cancel invoked — and its boolean result is discarded; the returned value
is whether a local manager held the job. -/
def clientCancelJob (managers : List (List Nat)) (db : List Job)
    (jobId : Nat) (now : Nat) : Bool × List Job :=
  let cancelled := managers.any fun m => m.contains jobId
  if cancelled then (cancelled, db)
  else (cancelled, (cancelJobStore db jobId now).snd)

/-- C10: when no local ActionManager holds the job, `Client.cancelJob`
returns `false` even though the store-level cancellation is performed (its
state transition is applied) — the store's boolean result is discarded. -/
theorem duron_C10_cancelJob_discards_store_result
    (managers : List (List Nat)) (db : List Job) (jobId now : Nat)
    (h : ∀ m ∈ managers, jobId ∉ m) :
    (clientCancelJob managers db jobId now).fst = false ∧
    (clientCancelJob managers db jobId now).snd
      = (cancelJobStore db jobId now).snd := by
  have hc : (managers.any fun m => m.contains jobId) = false := by
    rw [List.any_eq_false]
    intro m hm
    simpa using h m hm
  simp only [clientCancelJob, hc]
  simp

/-- C10, witness: one manager running job 5 only; cancelling job 2 (a
`created` job the store would happily cancel) returns `false` while the
store transition succeeds. -/
theorem duron_C10_cancelJob_discards_store_result_witness :
    (∀ m ∈ ([[5]] : List (List Nat)), (2 : Nat) ∉ m) ∧
    ((clientCancelJob [[5]] [cxJob2] 2 9).fst = false ∧
      (clientCancelJob [[5]] [cxJob2] 2 9).snd
        = (cancelJobStore [cxJob2] 2 9).snd) ∧
    (cancelJobStore [cxJob2] 2 9).fst = true :=
  ⟨by decide,
    duron_C10_cancelJob_discards_store_result [[5]] [cxJob2] 2 9 (by decide),
    by decide⟩

/-! ### Errors (`errors.ts`) -/

/-- The error classes of `errors.ts` relevant to retry classification,
plus the runtime's `AbortError` and plain `Error`. -/
inductive ErrClass where
  | nonRetriableError
  | actionCancelError
  | actionTimeoutError
  | stepTimeoutError
  | abortError
  | genericError
deriving DecidableEq, Repr

/-- A JavaScript error value: its class and its `cause` chain (a `leaf`
has no `cause`; `JsError.cause` recovers the optional-`cause` view of the
source). -/
inductive JsError where
  | leaf (cls : ErrClass)
  | withCause (cls : ErrClass) (cause : JsError)
deriving DecidableEq, Repr

/-- The class (constructor) of the error. -/
def JsError.cls : JsError → ErrClass
  | .leaf c => c
  | .withCause c _ => c

/-- `error.cause`. -/
def JsError.cause : JsError → Option JsError
  | .leaf _ => none
  | .withCause _ c => some c

/-- `error.name` (the constructor name, as `DuronError` sets it). -/
def JsError.errName (e : JsError) : String :=
  match e.cls with
  | .nonRetriableError => "NonRetriableError"
  | .actionCancelError => "ActionCancelError"
  | .actionTimeoutError => "ActionTimeoutError"
  | .stepTimeoutError => "StepTimeoutError"
  | .abortError => "AbortError"
  | .genericError => "Error"

/-- `isNonRetriableError` of `errors.ts`: `instanceof NonRetriableError`,
`ActionCancelError` or `ActionTimeoutError` (note: not
`StepTimeoutError`). -/
def isNonRetriableError (e : JsError) : Bool :=
  e.cls == .nonRetriableError || e.cls == .actionCancelError ||
    e.cls == .actionTimeoutError

/-- `isCancelError` of `errors.ts`. -/
def isCancelError (e : JsError) : Bool :=
  e.cls == .actionCancelError

/-- The guard of the `onFailedAttempt` handler in
`StepManager.#executeStep`: the error is non-retriable, or its *immediate*
`cause` is (the `AbortError` clause likewise only looks at the immediate
`cause`). -/
def bypassRetryB (e : JsError) : Bool :=
  isNonRetriableError e ||
  (match e.cause with
   | some c => isNonRetriableError c
   | none => false) ||
  (e.errName == "AbortError" &&
    (match e.cause with
     | some c => isNonRetriableError c
     | none => false))

/-- Modelled from the spec wording of the claim: the error, or some error
at any depth of its `cause` chain, is non-retriable.  This is the
predicate the claim ascribes to the code, stated for comparison with
`bypassRetryB`. -/
def specCarriesNonRetriable : JsError → Bool
  | .leaf c => isNonRetriableError (.leaf c)
  | .withCause c e =>
      isNonRetriableError (.withCause c e) || specCarriesNonRetriable e

/-! ### `p-retry.ts` and `StepManager.#executeStep` -/

/-- `calculateDelay` of `p-retry.ts`, with `randomize: false` (the value
`StepManager` passes), so `random = 1`.  JavaScript numbers are modelled
as rationals; `Math.round` (round half toward positive infinity) is
Mathlib's `round`. -/
def calculateDelay (retriesConsumed : Nat) (minTimeout maxTimeout factor : ℚ) :
    ℚ :=
  let attempt := max 1 (retriesConsumed + 1)
  min ((round (minTimeout * factor ^ (attempt - 1)) : ℤ) : ℚ) maxTimeout

/-- Equality of `Except` values is decidable componentwise (needed to
evaluate witnesses on concrete runs). -/
instance {ε α : Type} [DecidableEq ε] [DecidableEq α] :
    DecidableEq (Except ε α) := fun x y =>
  match x, y with
  | .ok a, .ok b => decidable_of_iff (a = b) (by simp)
  | .ok _, .error _ => isFalse (by simp)
  | .error _, .ok _ => isFalse (by simp)
  | .error e, .error f => decidable_of_iff (e = f) (by simp)

/-- Observable result of one `pRetry` run: the settled outcome, how many
times the wrapped closure was invoked, and the `delayJobStep` delays
persisted along the way (in order). -/
structure RetryRun (α : Type) where
  outcome : Except JsError α
  attemptsMade : Nat
  delays : List ℚ
deriving DecidableEq

/-- `new Error('Failed to delay step ...')` thrown when `delayJobStep`
reports failure. -/
def delayFailedError : JsError := .leaf .genericError

/-- The `pRetry` loop of `p-retry.ts` specialised to the
`onFailedAttempt` handler installed by `StepManager.#executeStep`.

`attempts n` is the outcome of the `n`-th invocation of the wrapped
closure; `delayOk k` is whether the `delayJobStep` call after the failure
with `retriesConsumed = k` persisted; `stepCreated` is whether the `step`
variable is set (it is, from the first attempt on, whenever
`createOrRecoverJobStep` returned a row).  The loop of the source runs
while `retriesConsumed <= retries` and throws from `onAttemptFailure` when
`retriesLeft = retries - retriesConsumed` reaches zero; it is written here
with the remaining retries `left = retries - rc` as the structural
argument.  On a retriable failure with `retriesLeft > 0` the handler first
persists the delay (`calculateDelay`, since `maxRetryTime` is infinite
`finalDelay = delayTime`), then the loop sleeps and repeats. -/
def stepRetryGo (minT maxT factor : ℚ) (attempts : Nat → Except JsError α)
    (delayOk : Nat → Bool) (stepCreated : Bool) :
    Nat → Nat → List ℚ → RetryRun α
  | left, rc, acc =>
    match attempts (rc + 1) with
    | .ok v => { outcome := .ok v, attemptsMade := rc + 1, delays := acc.reverse }
    | .error e =>
        if bypassRetryB e then
          { outcome := .error e, attemptsMade := rc + 1, delays := acc.reverse }
        else
          match left with
          | 0 =>
              { outcome := .error e, attemptsMade := rc + 1
                delays := acc.reverse }
          | left' + 1 =>
              if stepCreated then
                if delayOk rc then
                  stepRetryGo minT maxT factor attempts delayOk stepCreated
                    left' (rc + 1) (calculateDelay rc minT maxT factor :: acc)
                else
                  { outcome := .error delayFailedError, attemptsMade := rc + 1
                    delays := acc.reverse }
              else
                stepRetryGo minT maxT factor attempts delayOk stepCreated
                  left' (rc + 1) acc

/-- The retry options of `StepOptionsSchema` (`retry.limit` is `retries`). -/
structure RetryOpts where
  limit : Nat
  factor : ℚ
  minTimeout : ℚ
  maxTimeout : ℚ
deriving DecidableEq

/-- `pRetry(executeStep, {...})` as called by `StepManager.#executeStep`. -/
def stepRetry (opts : RetryOpts) (attempts : Nat → Except JsError α)
    (delayOk : Nat → Bool) (stepCreated : Bool) : RetryRun α :=
  stepRetryGo opts.minTimeout opts.maxTimeout opts.factor attempts delayOk
    stepCreated opts.limit 0 []

/-- Step status enumeration, `STEP_STATUS_*` of `constants.ts`. -/
inductive StepStatus where
  | active
  | completed
  | failed
  | cancelled
deriving DecidableEq, Repr

/-- The row `createOrRecoverJobStep` returns (the fields
`StepManager.#executeStep` reads). -/
structure StepRow (α : Type) where
  id : Nat
  status : StepStatus
  output : α
  error : Option JsError
deriving DecidableEq

/-- One invocation of the `executeStep` closure inside
`StepManager.#executeStep`.  On the first attempt the step row is created
or recovered: a `completed` row returns its stored output without running
the callback, a `failed` or `cancelled` row raises a `NonRetriableError`
whose `cause` is the stored error, a `null` result raises a
`NonRetriableError`, and an `active` (fresh or reset) row runs the
callback.  Later attempts skip the `if (!step)` block and run the
callback.  `cb n` is the outcome of the `n`-th callback invocation,
including the `completeJobStep` write. -/
def stepAttempt (row : Option (StepRow α)) (cb : Nat → Except JsError α)
    (n : Nat) : Except JsError α :=
  match row with
  | none => .error (.leaf .nonRetriableError)
  | some r =>
      if n = 1 then
        match r.status with
        | .completed => .ok r.output
        | .failed =>
            .error (match r.error with
              | some c => .withCause .nonRetriableError c
              | none => .leaf .nonRetriableError)
        | .cancelled =>
            .error (match r.error with
              | some c => .withCause .nonRetriableError c
              | none => .leaf .nonRetriableError)
        | .active => cb n
      else cb n

/-- Whether the `n`-th invocation of the closure reaches the callback. -/
def stepAttemptUsesCb (row : Option (StepRow α)) (n : Nat) : Bool :=
  match row with
  | none => false
  | some r => if n = 1 then r.status == .active else true

/-- The terminal persistence of a step performed by the final `.catch` of
`StepManager.#executeStep`. -/
inductive StepFinal where
  | cancelledStep
  | failedStep (err : JsError)
deriving DecidableEq

/-- Full observable result of `StepManager.#executeStep`. -/
structure StepRunResult (α : Type) where
  run : RetryRun α
  finalize : Option StepFinal
deriving DecidableEq

/-- `StepManager.#executeStep`: the recovered row, the retry wrapper, and
the final `.catch` that, when a step row exists, persists the terminal
outcome — `cancelJobStep` for cancel errors, otherwise `failJobStep` with
the serialised error (`serializeError` keeps name, message and cause, so
it is modelled as the error itself). -/
def executeStep (row : Option (StepRow α)) (cb : Nat → Except JsError α)
    (opts : RetryOpts) (delayOk : Nat → Bool) : StepRunResult α :=
  let run := stepRetry opts (stepAttempt row cb) delayOk row.isSome
  { run := run
    finalize :=
      match run.outcome with
      | .ok _ => none
      | .error e =>
          if row.isSome then
            some (if isCancelError e then .cancelledStep else .failedStep e)
          else none }

/-! ### `_delayJobStep` -/

/-- One row of the `job_steps` relation (the fields `_delayJobStep`
touches); times and durations are rationals here, matching the retry
model. -/
structure JobStepRow where
  id : Nat
  jobId : Nat
  status : StepStatus
  timeoutMs : ℚ
  expiresAt : Option ℚ
  retriesCount : Nat
  delayedMs : Option ℚ
  history : List (ℚ × JsError × ℚ)
deriving DecidableEq

/-- `PostgresBaseAdapter._delayJobStep`: guarded by the step being
`active` and the owning job being `active`; sets `delayed_ms`, increments
`retries_count`, moves `expires_at` to `now() + timeout_ms + delayMs`, and
appends the failure (keyed by the current time) to
`history_failed_attempts`. -/
def delayJobStep (s : JobStepRow) (jobStatus : JobStatus) (now delayMs : ℚ)
    (err : JsError) : Bool × JobStepRow :=
  if s.status == .active && jobStatus == .active then
    (true,
      { s with
        delayedMs := some delayMs
        retriesCount := s.retriesCount + 1
        expiresAt := some (now + s.timeoutMs + delayMs)
        history := s.history ++ [(now, err, delayMs)] })
  else (false, s)

/-- One completed, one failed, and one active recovered step row, and the
retry options used by the concrete runs. -/
def cxStepCompleted : StepRow Nat :=
  { id := 1, status := .completed, output := 42, error := none }

/-- A failed step row carrying a stored error. -/
def cxStepFailed : StepRow Nat :=
  { id := 2, status := .failed, output := 0
    error := some (.leaf .genericError) }

/-- An active (fresh) step row. -/
def cxStepActive : StepRow Nat :=
  { id := 3, status := .active, output := 0, error := none }

/-- Retry options with `limit = 1`. -/
def cxOpts : RetryOpts :=
  { limit := 1, factor := 2, minTimeout := 10, maxTimeout := 100 }

/-- C2: when `createOrRecoverJobStep` returns a `completed` row, the step
dispatch returns the stored output after a single attempt that never
reaches the callback (the result does not depend on the callback at all)
and persists nothing; when it returns a `failed` or `cancelled` row, the
dispatch raises after one attempt a non-retriable error whose `cause` is
the stored error, persists it as the step's failure, and never reaches the
callback. -/
theorem duron_C2_step_recovery {α : Type} (r : StepRow α)
    (cb cb' : Nat → Except JsError α) (opts : RetryOpts)
    (delayOk : Nat → Bool) :
    (r.status = .completed →
      executeStep (some r) cb opts delayOk
        = { run := { outcome := .ok r.output, attemptsMade := 1, delays := [] }
            finalize := none }
      ∧ executeStep (some r) cb opts delayOk
          = executeStep (some r) cb' opts delayOk
      ∧ stepAttemptUsesCb (some r) 1 = false)
    ∧ ((r.status = .failed ∨ r.status = .cancelled) →
      ∃ e, executeStep (some r) cb opts delayOk
          = { run := { outcome := .error e, attemptsMade := 1, delays := [] }
              finalize := some (.failedStep e) }
        ∧ isNonRetriableError e = true ∧ e.cause = r.error
        ∧ stepAttemptUsesCb (some r) 1 = false) := by
  constructor
  · intro h
    refine ⟨?_, ?_, ?_⟩
    · simp [executeStep, stepRetry, stepRetryGo, stepAttempt, h]
    · simp [executeStep, stepRetry, stepRetryGo, stepAttempt, h]
    · simp [stepAttemptUsesCb, h]
  · intro h
    refine ⟨(match r.error with
      | some c => .withCause .nonRetriableError c
      | none => .leaf .nonRetriableError), ?_, ?_, ?_, ?_⟩
    · rcases her : r.error with _ | c <;> rcases h with h | h <;>
        simp [executeStep, stepRetry, stepRetryGo, stepAttempt, h, her,
          bypassRetryB, isNonRetriableError, isCancelError, JsError.cls]
    · rcases her : r.error with _ | c <;>
        simp [isNonRetriableError, JsError.cls]
    · rcases her : r.error with _ | c <;> simp [JsError.cause]
    · rcases h with h | h <;> simp [stepAttemptUsesCb, h]

/-- C2, witness: the theorem applied to a completed and a failed recovered
row with two different callbacks. -/
theorem duron_C2_step_recovery_witness :
    (cxStepCompleted.status = .completed ∧ cxStepFailed.status = .failed) ∧
    (executeStep (some cxStepCompleted) (fun _ => .ok 0) cxOpts (fun _ => true)
        = { run := { outcome := .ok cxStepCompleted.output, attemptsMade := 1
                     delays := [] }
            finalize := none }
      ∧ executeStep (some cxStepCompleted) (fun _ => .ok 0) cxOpts (fun _ => true)
          = executeStep (some cxStepCompleted) (fun _ => .ok 7) cxOpts (fun _ => true)
      ∧ stepAttemptUsesCb (some cxStepCompleted) 1 = false) ∧
    (∃ e, executeStep (some cxStepFailed) (fun _ => .ok 0) cxOpts (fun _ => true)
        = { run := { outcome := .error e, attemptsMade := 1, delays := [] }
            finalize := some (.failedStep e) }
      ∧ isNonRetriableError e = true ∧ e.cause = cxStepFailed.error
      ∧ stepAttemptUsesCb (some cxStepFailed) 1 = false) :=
  ⟨⟨rfl, rfl⟩,
    (duron_C2_step_recovery cxStepCompleted (fun _ => .ok 0) (fun _ => .ok 7)
      cxOpts (fun _ => true)).1 rfl,
    (duron_C2_step_recovery cxStepFailed (fun _ => .ok 0) (fun _ => .ok 7)
      cxOpts (fun _ => true)).2 (Or.inl rfl)⟩

/-! ### Retry-loop lemmas -/

theorem stepRetryGo_attemptsMade_le (minT maxT factor : ℚ)
    (attempts : Nat → Except JsError α) (delayOk : Nat → Bool)
    (stepCreated : Bool) :
    ∀ (left rc : Nat) (acc : List ℚ),
      (stepRetryGo minT maxT factor attempts delayOk stepCreated
        left rc acc).attemptsMade ≤ rc + left + 1 := by
  intro left
  induction left with
  | zero =>
      intro rc acc
      rw [stepRetryGo]
      cases attempts (rc + 1) with
      | ok v => simp
      | error e =>
          by_cases hb : bypassRetryB e = true <;> simp [hb]
  | succ l ih =>
      intro rc acc
      rw [stepRetryGo]
      cases attempts (rc + 1) with
      | ok v => simp
      | error e =>
          by_cases hb : bypassRetryB e = true
          · simp [hb]
          · cases stepCreated with
            | false =>
                simp only [hb, Bool.false_eq_true, if_neg, not_false_iff,
                  Bool.if_false_left]
                exact le_trans (ih (rc + 1) acc) (by omega)
            | true =>
                by_cases hd : delayOk rc = true
                · simp only [hb, hd, Bool.false_eq_true, if_neg,
                    not_false_iff, if_pos, if_true]
                  exact le_trans (ih (rc + 1) _) (by omega)
                · simp [hb, hd]

theorem stepRetryGo_all_fail {α : Type} (minT maxT factor : ℚ)
    (eFn : Nat → JsError) (delayOk : Nat → Bool)
    (hby : ∀ n, bypassRetryB (eFn n) = false)
    (hdel : ∀ k, delayOk k = true) :
    ∀ (left rc : Nat) (acc : List ℚ),
      stepRetryGo (α := α) minT maxT factor (fun n => .error (eFn n)) delayOk
          true left rc acc
        = { outcome := .error (eFn (rc + left + 1))
            attemptsMade := rc + left + 1
            delays := acc.reverse ++ (List.range' rc left).map
              (fun k => calculateDelay k minT maxT factor) } := by
  intro left
  induction left with
  | zero =>
      intro rc acc
      rw [stepRetryGo]
      simp [hby (rc + 1)]
  | succ l ih =>
      intro rc acc
      rw [stepRetryGo]
      simp only [hby (rc + 1), Bool.false_eq_true, if_neg, not_false_iff,
        if_true, hdel rc]
      rw [ih (rc + 1) _]
      have h1 : rc + 1 + l + 1 = rc + (l + 1) + 1 := by omega
      rw [h1]
      simp [List.range'_succ, List.append_assoc]

theorem calculateDelay_nat (k : Nat) (m M f : ℕ) :
    calculateDelay k (m : ℚ) (M : ℚ) (f : ℚ) = ((min M (m * f ^ k) : ℕ) : ℚ) := by
  rw [calculateDelay]
  have h1 : max 1 (k + 1) - 1 = k := by omega
  rw [h1]
  have h2 : (m : ℚ) * (f : ℚ) ^ k = ((m * f ^ k : ℕ) : ℚ) := by
    push_cast
    ring
  rw [h2, round_natCast]
  push_cast
  exact min_comm _ _

/-- C7: (i) the wrapped closure is invoked at most `limit + 1` times for
any attempt outcomes; (ii) when every attempt fails with a retriable error
and every `delayJobStep` persists, the run makes exactly `limit + 1`
attempts and persists exactly one delay per failed attempt except the
last, the delay after the failure with `retriesConsumed = k` being
`calculateDelay k`; (iii) for natural-number retry options the delay after
the `k+1`-st failed attempt equals `min maxTimeout (minTimeout * factor^k)`
with no randomisation; (iv) `delayJobStep` on an active step of an active
job succeeds and moves the step's `expiresAt` to
`now + timeoutMs + delayMs`. -/
theorem duron_C7_step_retry_backoff {α : Type} (opts : RetryOpts)
    (attempts : Nat → Except JsError α) (delayOk : Nat → Bool)
    (eFn : Nat → JsError)
    (hfail : ∀ n, attempts n = .error (eFn n))
    (hby : ∀ n, bypassRetryB (eFn n) = false)
    (hdel : ∀ k, delayOk k = true)
    (m M f : ℕ) (k : Nat)
    (s : JobStepRow) (hs : s.status = .active) (now d : ℚ) (err : JsError) :
    (∀ (attempts' : Nat → Except JsError α) (delayOk' : Nat → Bool)
        (sc : Bool),
      (stepRetry opts attempts' delayOk' sc).attemptsMade ≤ opts.limit + 1)
    ∧ stepRetry opts attempts delayOk true
        = { outcome := .error (eFn (opts.limit + 1))
            attemptsMade := opts.limit + 1
            delays := (List.range' 0 opts.limit).map
              (fun j => calculateDelay j opts.minTimeout opts.maxTimeout
                opts.factor) }
    ∧ calculateDelay k (m : ℚ) (M : ℚ) (f : ℚ) = ((min M (m * f ^ k) : ℕ) : ℚ)
    ∧ delayJobStep s .active now d err
        = (true,
          { s with
            delayedMs := some d
            retriesCount := s.retriesCount + 1
            expiresAt := some (now + s.timeoutMs + d)
            history := s.history ++ [(now, err, d)] }) := by
  refine ⟨?_, ?_, calculateDelay_nat k m M f, ?_⟩
  · intro attempts' delayOk' sc
    simpa using stepRetryGo_attemptsMade_le opts.minTimeout opts.maxTimeout
      opts.factor attempts' delayOk' sc opts.limit 0 []
  · have ha : attempts = fun n => .error (eFn n) := funext hfail
    rw [stepRetry, ha,
      stepRetryGo_all_fail opts.minTimeout opts.maxTimeout opts.factor eFn
        delayOk hby hdel opts.limit 0 []]
    simp
  · rw [delayJobStep]
    simp [hs]

/-- An active step row used by the C7 witness. -/
def cxStepRow7 : JobStepRow :=
  { id := 1, jobId := 1, status := .active, timeoutMs := 50
    expiresAt := none, retriesCount := 0, delayedMs := none, history := [] }

/-- C7, witness: the theorem applied to constantly failing attempts with
retriable generic errors, options `{limit 1, factor 2, minTimeout 10,
maxTimeout 100}`, naturals `m = 10, M = 100, f = 2, k = 1`, and a
concrete delay of an active step. -/
theorem duron_C7_step_retry_backoff_witness :
    ((∀ n, ((fun _ => (.error (.leaf .genericError) : Except JsError Nat)) n)
        = .error (((fun _ => .leaf .genericError) : Nat → JsError) n))
      ∧ (∀ n, bypassRetryB (((fun _ => .leaf .genericError) : Nat → JsError) n)
          = false)
      ∧ (∀ k, ((fun _ => true) : Nat → Bool) k = true)
      ∧ cxStepRow7.status = .active) ∧
    ((∀ (attempts' : Nat → Except JsError Nat) (delayOk' : Nat → Bool)
        (sc : Bool),
      (stepRetry cxOpts attempts' delayOk' sc).attemptsMade ≤ cxOpts.limit + 1)
    ∧ stepRetry cxOpts
        (fun _ => (.error (.leaf .genericError) : Except JsError Nat))
        (fun _ => true) true
        = { outcome := .error (.leaf .genericError)
            attemptsMade := cxOpts.limit + 1
            delays := (List.range' 0 cxOpts.limit).map
              (fun j => calculateDelay j cxOpts.minTimeout cxOpts.maxTimeout
                cxOpts.factor) }
    ∧ calculateDelay 1 ((10 : ℕ) : ℚ) ((100 : ℕ) : ℚ) ((2 : ℕ) : ℚ)
        = ((min 100 (10 * 2 ^ 1) : ℕ) : ℚ)
    ∧ delayJobStep cxStepRow7 .active 3 7 (.leaf .genericError)
        = (true,
          { cxStepRow7 with
            delayedMs := some 7
            retriesCount := cxStepRow7.retriesCount + 1
            expiresAt := some (3 + cxStepRow7.timeoutMs + 7)
            history := cxStepRow7.history ++ [(3, .leaf .genericError, 7)] })) :=
  ⟨⟨fun _ => rfl,
    fun _ => (by decide : bypassRetryB (JsError.leaf .genericError) = false),
    fun _ => rfl, rfl⟩,
    duron_C7_step_retry_backoff cxOpts
      (fun _ => (.error (.leaf .genericError) : Except JsError Nat))
      (fun _ => true) (fun _ => .leaf .genericError) (fun _ => rfl)
      (fun _ =>
        (by decide : bypassRetryB (JsError.leaf .genericError) = false))
      (fun _ => rfl) 10 100 2 1 cxStepRow7 rfl 3 7
      (.leaf .genericError)⟩

/-- A generic error whose non-retriable marker sits two `cause` levels
deep. -/
def cxDeepErr : JsError :=
  .withCause .genericError (.withCause .genericError (.leaf .nonRetriableError))

/-- C9, counterexample to the claim as stated: `cxDeepErr` carries a
non-retriable marker in its `cause` chain (at depth 2), so by the claim it
should bypass every remaining retry attempt; but the code's guard only
inspects the error and its immediate `cause`, so with `limit = 1` the step
is attempted a second time instead of stopping after the first. -/
theorem duron_C9_counterexample :
    specCarriesNonRetriable cxDeepErr = true ∧
    bypassRetryB cxDeepErr = false ∧
    (executeStep (some cxStepActive)
      (fun _ => (.error cxDeepErr : Except JsError Nat)) cxOpts
      (fun _ => true)).run.attemptsMade = 2 := by
  refine ⟨by decide, by decide, by decide⟩

/-- C9, amended: during step retry an error bypasses all remaining
attempts exactly when it, or its *immediate* `cause`, is non-retriable
(`NonRetriableError`, `ActionCancelError`, `ActionTimeoutError`); deeper
`cause` chains are not inspected.  A bypassing error ends the run after
the current attempt with no delay persisted, is persisted as the step's
terminal outcome (`cancelJobStep` for a cancel error, else `failJobStep`
with the error) and re-raised. -/
theorem duron_C9_nonretriable_bypass {α : Type} (e : JsError)
    (r : StepRow α) (opts : RetryOpts) (hr : r.status = .active)
    (hlim : 0 < opts.limit) :
    ((executeStep (some r) (fun _ => .error e) opts
        (fun _ => true)).run.attemptsMade = 1
      ↔ bypassRetryB e = true)
    ∧ (bypassRetryB e = true →
        executeStep (some r) (fun _ => .error e) opts (fun _ => true)
          = { run := { outcome := .error e, attemptsMade := 1, delays := [] }
              finalize := some (if isCancelError e then .cancelledStep
                else .failedStep e) }) := by
  have hatt : stepAttempt (some r) (fun _ => (.error e : Except JsError α))
      = fun _ => .error e := by
    funext n
    rw [stepAttempt]
    by_cases hn : n = 1
    · simp [hn, hr]
    · simp [hn]
  constructor
  · constructor
    · intro h1
      by_contra hb
      have hb' : bypassRetryB e = false := by simpa using hb
      have := stepRetryGo_all_fail (α := α) opts.minTimeout opts.maxTimeout
        opts.factor (fun _ => e) (fun _ => true) (fun _ => hb') (fun _ => rfl)
        opts.limit 0 []
      rw [executeStep] at h1
      simp only [stepRetry, hatt, Option.isSome_some] at h1
      rw [this] at h1
      simp at h1
      omega
    · intro hb
      rw [executeStep]
      simp only [stepRetry, hatt, Option.isSome_some]
      rw [stepRetryGo]
      simp [hb]
  · intro hb
    rw [executeStep]
    simp only [stepRetry, hatt, Option.isSome_some]
    rw [stepRetryGo]
    simp [hb]

/-- C9, witness: a bare `NonRetriableError` on an active row with
`limit = 1` bypasses after one attempt and is persisted as the failure. -/
theorem duron_C9_nonretriable_bypass_witness :
    (cxStepActive.status = .active ∧ 0 < cxOpts.limit) ∧
    (((executeStep (some cxStepActive)
        (fun _ => (.error (.leaf .nonRetriableError) : Except JsError Nat))
        cxOpts (fun _ => true)).run.attemptsMade = 1
      ↔ bypassRetryB (.leaf .nonRetriableError) = true)
    ∧ (bypassRetryB (.leaf .nonRetriableError) = true →
        executeStep (some cxStepActive)
          (fun _ => (.error (.leaf .nonRetriableError) : Except JsError Nat))
          cxOpts (fun _ => true)
          = { run := { outcome := .error (.leaf .nonRetriableError)
                       attemptsMade := 1, delays := [] }
              finalize := some (if isCancelError (.leaf .nonRetriableError)
                then .cancelledStep
                else .failedStep (.leaf .nonRetriableError)) })) :=
  ⟨⟨rfl, by decide⟩,
    duron_C9_nonretriable_bypass (.leaf .nonRetriableError) cxStepActive
      cxOpts rfl (by decide)⟩

/-! ### `ActionJob.execute` -/

/-- A store-level call performed by `ActionJob.execute`. -/
inductive JobStoreCall where
  | completeCall
  | cancelCall
  | failCall (err : JsError)
deriving DecidableEq, Repr

/-- Observable result of one `ActionJob.execute` run: the store calls in
order, the error propagated to the caller (if any), and the returned
value. -/
structure ActionJobResult (α : Type) where
  storeCalls : List JobStoreCall
  rethrown : Option JsError
  returned : Option α
deriving DecidableEq

/-- `new Error('Job not completed')`. -/
def jobNotCompletedError : JsError := .leaf .genericError

/-- The catch guard of `ActionJob.execute`: a cancel error, or an
`AbortError` whose `cause` is a cancel error. -/
def actionCancelGuard (e : JsError) : Bool :=
  isCancelError e ||
  (e.errName == "AbortError" &&
    (match e.cause with
     | some c => isCancelError c
     | none => false))

/-- `ActionJob.execute`: the handler outcome and the `completeJob` result
are oracles; output-schema validation is not modelled (no claim involves
it).  On handler success `completeJob` runs; when it reports `false` the
code throws `new Error('Job not completed')`, which the catch classifies
as a non-cancel error: it calls `failJob` with the serialised error and
re-raises it.  On handler error, cancel errors lead to `cancelJob` with no
re-raise; other errors to `failJob` plus re-raise. -/
def actionJobExecute (handlerResult : Except JsError α) (completeOk : Bool) :
    ActionJobResult α :=
  match handlerResult with
  | .ok v =>
      if completeOk then
        { storeCalls := [.completeCall], rethrown := none, returned := some v }
      else
        if actionCancelGuard jobNotCompletedError then
          { storeCalls := [.completeCall, .cancelCall], rethrown := none
            returned := none }
        else
          { storeCalls := [.completeCall, .failCall jobNotCompletedError]
            rethrown := some jobNotCompletedError, returned := none }
  | .error e =>
      if actionCancelGuard e then
        { storeCalls := [.cancelCall], rethrown := none, returned := none }
      else
        { storeCalls := [.failCall e], rethrown := some e, returned := none }

/-- C8, counterexample to the claim as stated: when the handler succeeds
but `completeJob` returns `false`, the run is not a no-op — the thrown
`Error('Job not completed')` reaches the catch, which calls `failJob` and
re-raises the error to the caller. -/
theorem duron_C8_counterexample :
    (actionJobExecute (.ok (0 : Nat)) false).rethrown
      = some jobNotCompletedError ∧
    (actionJobExecute (.ok (0 : Nat)) false).storeCalls
      = [.completeCall, .failCall jobNotCompletedError] := by
  refine ⟨by decide, by decide⟩

/-- C8, amended: on handler success, if `completeJob` reports `true` the
run ends cleanly with no further store call and nothing re-thrown; if it
reports `false` the run throws `Error('Job not completed')`, additionally
calls `failJob` with that serialised error, and re-raises it to the
caller (the job is never re-claimed — no further store call occurs). -/
theorem duron_C8_complete_false {α : Type} (v : α) :
    actionJobExecute (.ok v) true
      = { storeCalls := [.completeCall], rethrown := none
          returned := some v }
    ∧ actionJobExecute (.ok v) false
      = { storeCalls := [.completeCall, .failCall jobNotCompletedError]
          rethrown := some jobNotCompletedError, returned := none } := by
  constructor
  · rfl
  · rfl

end Duron
